import Mathlib

/-!
# Verification of `scripts/analyze_structure.py`

A shallow embedding of the Atomic Design structure analyzer.  The file
system is modelled as an inductive tree of named entries (files carry an
optional text content, `none` standing for an unreadable file), and each
Python method of `AtomicDesignAnalyzer` is translated into a Lean function
over that tree, threading the mutable `AnalysisReport` explicitly.

Python's textual pattern matching (`str.count`, `re.findall`, `re.search`
on the fixed patterns of the script) is translated into character-list
scanners specialised to those patterns.
-/

namespace AnalyzeStructure

/-! ## Character classes used by the fixed regular expressions -/

/-- Python `\s` on the ASCII range: space, tab, newline, carriage return,
vertical tab, form feed. -/
def isPySpace (c : Char) : Bool :=
  c = ' ' || c = '\t' || c = '\n' || c = '\r' || c = '\x0b' || c = '\x0c'

/-- Python `\w` on the ASCII range: letters, digits, underscore. -/
def isPyWord (c : Char) : Bool :=
  c.isAlphanum || c = '_'

/-! ## Python `str.count`: non-overlapping substring occurrences -/

/-- Fuel-driven scanner behind `countSub`; the fuel is always at least the
length of the scanned list, so it never runs out. -/
def countSubAux (pat : List Char) : Nat → List Char → Nat
  | 0, _ => 0
  | _ + 1, [] => 0
  | fuel + 1, c :: cs =>
    if pat.isPrefixOf (c :: cs) then
      1 + countSubAux pat fuel (List.drop (pat.length - 1) cs)
    else
      countSubAux pat fuel cs

/-- The `countSub pat s` is Python's `s.count(pat)` for a non-empty `pat`:
the number of non-overlapping occurrences, scanning left to right. -/
def countSub (pat s : List Char) : Nat :=
  countSubAux pat s.length s

/-! ## Matchers for the three `LOGIC_PATTERNS` regular expressions

Each matcher tries to match the pattern at the head of the list and
returns the remaining characters after the match.  In every pattern each
quantified character class is disjoint from the character that has to
follow it, so greedy (maximal-munch) scanning is exactly the Python
regular-expression semantics. -/

/-- Consume a literal. -/
def eatLit (lit : List Char) (s : List Char) : Option (List Char) :=
  if lit.isPrefixOf s then some (s.drop lit.length) else none

/-- Consume `\s+` (one or more whitespace characters, maximal). -/
def eatWs1 : List Char → Option (List Char)
  | c :: cs => if isPySpace c then some (cs.dropWhile isPySpace) else none
  | [] => none

/-- Consume `\s*` (zero or more whitespace characters, maximal). -/
def eatWs0 (s : List Char) : List Char :=
  s.dropWhile isPySpace

/-- Consume `\w+` (one or more word characters, maximal). -/
def eatWord1 : List Char → Option (List Char)
  | c :: cs => if isPyWord c then some (cs.dropWhile isPyWord) else none
  | [] => none

/-- Consume a single expected character. -/
def eatChar (c : Char) : List Char → Option (List Char)
  | d :: rest => if d = c then some rest else none
  | [] => none

/-- Consume `[^)]*\)`: everything up to and including the next
closing parenthesis. -/
def eatParenBody (s : List Char) : Option (List Char) :=
  match s.dropWhile (fun c => !(c = ')')) with
  | ')' :: rest => some rest
  | _ => none

/-- The `const\s+\w+\s*=\s*\([^)]*\)\s*=>\s*\{` (arrow-function assignment). -/
def matchArrowFn (s : List Char) : Option (List Char) :=
  (eatLit "const".data s).bind fun s1 =>
  (eatWs1 s1).bind fun s2 =>
  (eatWord1 s2).bind fun s3 =>
  (eatChar '=' (eatWs0 s3)).bind fun s4 =>
  (eatChar '(' (eatWs0 s4)).bind fun s5 =>
  (eatParenBody s5).bind fun s6 =>
  (eatChar '=' (eatWs0 s6)).bind fun s7 =>
  (eatChar '>' s7).bind fun s8 =>
  eatChar '\x7b' (eatWs0 s8)

/-- The `function\s+\w+\s*\([^)]*\)\s*\{` (named function declaration). -/
def matchNamedFn (s : List Char) : Option (List Char) :=
  (eatLit "function".data s).bind fun s1 =>
  (eatWs1 s1).bind fun s2 =>
  (eatWord1 s2).bind fun s3 =>
  (eatChar '(' (eatWs0 s3)).bind fun s4 =>
  (eatParenBody s4).bind fun s5 =>
  eatChar '\x7b' (eatWs0 s5)

/-- The `async\s+function` (async function declaration). -/
def matchAsyncFn (s : List Char) : Option (List Char) :=
  (eatLit "async".data s).bind fun s1 =>
  (eatWs1 s1).bind fun s2 =>
  eatLit "function".data s2

/-- Fuel-driven scanner behind `findAllCount`. -/
def findAllCountAux (m : List Char → Option (List Char)) : Nat → List Char → Nat
  | 0, _ => 0
  | _ + 1, [] => 0
  | fuel + 1, c :: cs =>
    match m (c :: cs) with
    | some rest => 1 + findAllCountAux m fuel rest
    | none => findAllCountAux m fuel cs

/-- The `findAllCount m s` is `len(re.findall(pattern, s))` for the pattern
matched by `m`: non-overlapping leftmost matches, scanning left to
right and resuming after each match. -/
def findAllCount (m : List Char → Option (List Char)) (s : List Char) : Nat :=
  findAllCountAux m s.length s

/-! ## The dependency-direction regular expression

`from\s+['"].*/<forbidden>/|from\s+['"]@/components/<forbidden>/`
searched anywhere in the file content (`re.search`). -/

/-- The `.*/<forbidden>/` after the opening quote: some run of
non-newline characters followed by `/<forbidden>/`. -/
def importTailA (pat : List Char) : List Char → Bool
  | [] => false
  | c :: cs => pat.isPrefixOf (c :: cs) || (!(c = '\n') && importTailA pat cs)

/-- Match one alternative of the dependency pattern at the head of the
list: `from`, one or more whitespace characters, a quote, then either
`.*/<forbidden>/` or `@/components/<forbidden>/`. -/
def matchImportAt (forb : List Char) (s : List Char) : Bool :=
  match eatLit "from".data s with
  | none => false
  | some s1 =>
    match s1 with
    | [] => false
    | c :: cs =>
      isPySpace c &&
      match cs.dropWhile isPySpace with
      | [] => false
      | q :: s2 =>
        (q = '\'' || q = '"') &&
        (importTailA ('/' :: (forb ++ ['/'])) s2 ||
         ("@/components/".data ++ forb ++ ['/']).isPrefixOf s2)

/-- The `re.search` over the dependency pattern: try the match at every
position of the content. -/
def importSearchAux (forb : List Char) : List Char → Bool
  | [] => false
  | c :: cs => matchImportAt forb (c :: cs) || importSearchAux forb cs

/-- Whether the file content contains an import-style reference to the
forbidden tier, exactly as decided by the script's regular expression. -/
def importSearch (forb : String) (content : String) : Bool :=
  importSearchAux forb.data content.data

/-! ## Name predicates (`pathlib` suffixes, `str.endswith`) -/

/-- The `suf.isSuffixOf s` on the character lists: Python `s.endswith(suf)`. -/
def strEndsWith (s suf : String) : Bool :=
  suf.data.isSuffixOf s.data

/-- Index of the last `.` in a name, if any. -/
def lastDotIdx : List Char → Option Nat
  | [] => none
  | c :: cs =>
    match lastDotIdx cs with
    | some i => some (i + 1)
    | none => if c = '.' then some 0 else none

/-- Python `pathlib.PurePath.suffix` of a single name: the final
extension, empty when the only dot is leading or trailing. -/
def pySuffix (n : String) : String :=
  match lastDotIdx n.data with
  | none => ""
  | some i =>
    if 0 < i && i < n.data.length - 1 then String.mk (n.data.drop i) else ""

/-- Python `str.capitalize` on the ASCII range: first character
uppercased, the rest lowercased. -/
def pyCapitalize (s : String) : String :=
  match s.data with
  | [] => ""
  | c :: cs => String.mk (c.toUpper :: cs.map Char.toLower)

/-! ## The file-system model

A directory is a list of entries in enumeration order (the order in which
`os.walk` / `Path.iterdir` list them).  A file carries `some` content when
`read_text` succeeds on it and `none` when reading raises. -/

/-- One file-system entry. -/
inductive Entry : Type where
  | file : String → Option String → Entry
  | dir : String → List Entry → Entry

/-- The name of an entry. -/
def entryName : Entry → String
  | Entry.file n _ => n
  | Entry.dir n _ => n

/-- The children of an entry (a file has none). -/
def entriesOf : Entry → List Entry
  | Entry.file _ _ => []
  | Entry.dir _ es => es

/-- The `Path.read_text` wrapped in the script's `try`/`except`: `none` when
the entry is a directory or its content is unreadable. -/
def readText : Entry → Option String
  | Entry.file _ c => c
  | Entry.dir _ _ => none

/-- Look an entry up by name: `Path.exists()` for `<parent>/<name>` is
`(findEntry name parentEntries).isSome`. -/
def findEntry (name : String) (es : List Entry) : Option Entry :=
  es.find? fun e => entryName e == name

/-- Whether a *directory* entry of the given name exists (stricter than
`Path.exists()`, which is also true for a plain file). -/
def dirExists (name : String) (es : List Entry) : Bool :=
  es.any fun e =>
    match e with
    | Entry.dir n _ => n == name
    | Entry.file _ _ => false

/-- The names of the plain files directly inside a directory (`files`
from `os.walk`, and `{f.name for f in files if f.is_file()}` from
`iterdir`). -/
def fileNamesOf (entries : List Entry) : List String :=
  entries.filterMap fun e =>
    match e with
    | Entry.file n _ => some n
    | Entry.dir _ _ => none

/-! ## The analyzer's fixed constants -/

/-- The `COMPONENT_EXTENSIONS`, via `str.endswith`. -/
def hasComponentExt (n : String) : Bool :=
  strEndsWith n ".tsx" || strEndsWith n ".jsx"

/-- The `TEST_PATTERNS`, via `str.endswith`. -/
def isTestFileName (n : String) : Bool :=
  strEndsWith n ".test.tsx" || strEndsWith n ".test.jsx" ||
  strEndsWith n ".spec.tsx" || strEndsWith n ".spec.jsx"

/-- The `BARREL_FILES` membership. -/
def isBarrelFileName (n : String) : Bool :=
  n == "index.ts" || n == "index.tsx" || n == "index.js" || n == "index.jsx"

/-- The `Path.suffix in COMPONENT_EXTENSIONS`. -/
def isComponentSuffix (n : String) : Bool :=
  pySuffix n == ".tsx" || pySuffix n == ".jsx"

/-- The `STATE_HOOKS`. -/
def stateHooks : List String :=
  ["useState", "useReducer", "useEffect", "useMemo", "useCallback"]

/-- The tier names, in the fixed order the analyzer visits them. -/
def levelNames : List String :=
  ["atoms", "molecules", "organisms"]

/-- The `forbidden_imports` table (`dict.get(level, [])`). -/
def forbiddenImports (level : String) : List String :=
  if level == "atoms" then ["molecules", "organisms"]
  else if level == "molecules" then ["organisms"]
  else if level == "organisms" then []
  else []

/-- The `sum(content.count(hook) for hook in STATE_HOOKS)`. -/
def hookCount (content : String) : Nat :=
  (stateHooks.map fun h => countSub h.data content.data).foldl (· + ·) 0

/-- The `len(function_matches)` after extending with the `findall` results of
the three `LOGIC_PATTERNS`. -/
def funcCount (content : String) : Nat :=
  findAllCount matchArrowFn content.data +
  findAllCount matchNamedFn content.data +
  findAllCount matchAsyncFn content.data

/-! ## `Violation` and `AnalysisReport` -/

/-- The `Violation` dataclass. -/
structure Violation : Type where
  type : String
  path : List String
  message : String
  severity : String := "warning"
deriving DecidableEq

/-- The `AnalysisReport` dataclass. -/
structure AnalysisReport : Type where
  violations : List Violation := []
  components_found : Nat := 0
  components_with_tests : Nat := 0
  components_with_barrels : Nat := 0
deriving DecidableEq

/-- The `AnalysisReport.add`: append a violation at the end. -/
def AnalysisReport.add (r : AnalysisReport) (v : Violation) : AnalysisReport :=
  { r with violations := r.violations ++ [v] }

/-- The `AnalysisReport.has_errors`. -/
def AnalysisReport.has_errors (r : AnalysisReport) : Bool :=
  r.violations.any fun v => v.severity == "error"

/-! ## `_find_component_dirs` (the Component Locator) -/

/-- Whether a directory's file listing directly contains a non-test
component source file (`has_component` in `_find_component_dirs`). -/
def hasComponentFile (fileNames : List String) : Bool :=
  fileNames.any fun f => hasComponentExt f && !(isTestFileName f)

mutual

/-- The `os.walk` tuples contributed by one entry: nothing for a file,
and for a directory its own `(path, entries)` followed depth-first by
those of its children, in enumeration order. -/
def walkEntry (path : List String) : Entry → List (List String × List Entry)
  | Entry.file _ _ => []
  | Entry.dir n es => (path ++ [n], es) :: walkEntries (path ++ [n]) es

/-- The `os.walk` tuples contributed by a list of sibling entries. -/
def walkEntries (path : List String) : List Entry → List (List String × List Entry)
  | [] => []
  | e :: rest => walkEntry path e ++ walkEntries path rest

end

/-- The `_find_component_dirs`: every directory reachable from the base
(inclusive, `os.walk` order) whose file listing has a component file. -/
def findComponentDirs (basePath : List String) (es : List Entry) :
    List (List String × List Entry) :=
  ((basePath, es) :: walkEntries basePath es).filter fun u =>
    hasComponentFile (fileNamesOf u.2)

/-! ## The per-file checks -/

/-- The `_check_component_logic`. -/
def checkComponentLogic (p : List String) (e : Entry) (level : String)
    (r : AnalysisReport) : AnalysisReport :=
  match readText e with
  | none => r
  | some content =>
    if 2 < hookCount content ∧ 2 < funcCount content then
      r.add
        { type := "logic", path := p,
          message := "Component has " ++ toString (hookCount content) ++
            " hooks and " ++ toString (funcCount content) ++
            " functions. Consider extracting logic to a custom hook.",
          severity := "warning" }
    else r

/-- The `_check_imports`. The `level` parameter is used, unlike in
`_check_component_logic` where Python also ignores it. -/
def checkImports (p : List String) (e : Entry) (level : String)
    (r : AnalysisReport) : AnalysisReport :=
  match readText e with
  | none => r
  | some content =>
    (forbiddenImports level).foldl
      (fun acc forb =>
        if importSearch forb content then
          acc.add
            { type := "dependency", path := p,
              message := pyCapitalize level ++ " should not import from " ++ forb,
              severity := "error" }
        else acc)
      r

/-! ## `_analyze_component` (the Rule Engine, per unit) -/

/-- The `_analyze_component`. -/
def analyzeComponent (p : List String) (entries : List Entry) (level : String)
    (r : AnalysisReport) : AnalysisReport :=
  let r1 := { r with components_found := r.components_found + 1 }
  let fileNames := fileNamesOf entries
  let r2 :=
    if fileNames.any isBarrelFileName then
      { r1 with components_with_barrels := r1.components_with_barrels + 1 }
    else
      r1.add
        { type := "barrel", path := p,
          message := "Missing barrel file (index.ts)", severity := "warning" }
  let r3 :=
    if fileNames.any isTestFileName then
      { r2 with components_with_tests := r2.components_with_tests + 1 }
    else
      r2.add
        { type := "test", path := p,
          message := "Missing test file", severity := "warning" }
  entries.foldl
    (fun acc e =>
      if isComponentSuffix (entryName e) && !(isTestFileName (entryName e)) then
        checkImports (p ++ [entryName e]) e level
          (checkComponentLogic (p ++ [entryName e]) e level acc)
      else acc)
    r3

/-! ## Orchestration: `_check_top_level_structure`, `_analyze_components`,
`analyze`, `main` -/

/-- The `_check_top_level_structure`. -/
def checkTopLevelStructure (cp : List String) (ents : List Entry)
    (r : AnalysisReport) : AnalysisReport :=
  levelNames.foldl
    (fun acc d =>
      match findEntry d ents with
      | none =>
        acc.add
          { type := "structure", path := cp ++ [d],
            message := "Missing " ++ d ++ "/ directory", severity := "warning" }
      | some _ => acc)
    r

/-- The component units of one tier: none when the tier path does not
exist, none when it exists but is a plain file (`os.walk` on a non-
directory yields nothing), and `_find_component_dirs` otherwise. -/
def levelUnits (cp : List String) (ents : List Entry) (level : String) :
    List (List String × List Entry) :=
  match findEntry level ents with
  | none => []
  | some (Entry.file _ _) => []
  | some (Entry.dir _ des) => findComponentDirs (cp ++ [level]) des

/-- The `_analyze_components`. -/
def analyzeComponents (cp : List String) (ents : List Entry)
    (r : AnalysisReport) : AnalysisReport :=
  levelNames.foldl
    (fun acc level =>
      (levelUnits cp ents level).foldl
        (fun a u => analyzeComponent u.1 u.2 level a)
        acc)
    r

/-- The `AtomicDesignAnalyzer.analyze`, starting from the fresh report the
constructor builds. -/
def analyze (srcPath : List String) (srcEntries : List Entry) : AnalysisReport :=
  let cp := srcPath ++ ["components"]
  match findEntry "components" srcEntries with
  | none =>
    AnalysisReport.add {}
      { type := "structure", path := cp,
        message := "components/ directory not found", severity := "error" }
  | some ce =>
    analyzeComponents cp (entriesOf ce) (checkTopLevelStructure cp (entriesOf ce) {})

/-- The exit code of `main`: `none` models a supplied source path that
does not exist (`sys.exit(1)` before any analysis), `some` carries the
source path and its entries. -/
def mainExitCode : Option (List String × List Entry) → Nat
  | none => 1
  | some s => if (analyze s.1 s.2).has_errors then 1 else 0

/-! ## Pure views of the recorded violations

Each state-threading check above is proved (below) to append exactly the
following pure lists to `report.violations`, leaving the rest of the
report alone.  These lists are the handle the claim theorems use. -/

/-- The violations `_check_component_logic` records for one file. -/
def logicViolationList (p : List String) (e : Entry) : List Violation :=
  match readText e with
  | none => []
  | some content =>
    if 2 < hookCount content ∧ 2 < funcCount content then
      [{ type := "logic", path := p,
         message := "Component has " ++ toString (hookCount content) ++
           " hooks and " ++ toString (funcCount content) ++
           " functions. Consider extracting logic to a custom hook.",
         severity := "warning" }]
    else []

/-- The violations `_check_imports` records for one file. -/
def depViolationList (p : List String) (e : Entry) (level : String) :
    List Violation :=
  match readText e with
  | none => []
  | some content =>
    (forbiddenImports level).filterMap fun forb =>
      if importSearch forb content then
        some
          { type := "dependency", path := p,
            message := pyCapitalize level ++ " should not import from " ++ forb,
            severity := "error" }
      else none

/-- The per-file violations of a unit, file by file in enumeration
order, the logic check before the dependency check for each file. -/
def perFileViolations (p : List String) (entries : List Entry)
    (level : String) : List Violation :=
  (entries.map fun e =>
    if isComponentSuffix (entryName e) && !(isTestFileName (entryName e)) then
      logicViolationList (p ++ [entryName e]) e ++
        depViolationList (p ++ [entryName e]) e level
    else []).flatten

/-- All violations `_analyze_component` records for one unit. -/
def unitViolations (p : List String) (entries : List Entry) (level : String) :
    List Violation :=
  (if (fileNamesOf entries).any isBarrelFileName then []
   else
     [{ type := "barrel", path := p,
        message := "Missing barrel file (index.ts)", severity := "warning" }]) ++
  (if (fileNamesOf entries).any isTestFileName then []
   else
     [{ type := "test", path := p,
        message := "Missing test file", severity := "warning" }]) ++
  perFileViolations p entries level

/-- The violations `_check_top_level_structure` records. -/
def structureViolations (cp : List String) (ents : List Entry) :
    List Violation :=
  levelNames.filterMap fun d =>
    match findEntry d ents with
    | none =>
      some
        { type := "structure", path := cp ++ [d],
          message := "Missing " ++ d ++ "/ directory", severity := "warning" }
    | some _ => none

/-- Every analyzed unit together with its tier, in detection order:
tiers in their fixed order, units in locator order within a tier. -/
def tierUnitList (cp : List String) (ents : List Entry) (ls : List String) :
    List (String × List String × List Entry) :=
  (ls.map fun level => (levelUnits cp ents level).map fun u => (level, u)).flatten

/-- The full violation sequence of a run, written as one concatenation:
the short-circuit structure error, or the structure warnings followed per
tier and per unit by that unit's violations. -/
def expectedViolations (srcPath : List String) (srcEntries : List Entry) :
    List Violation :=
  let cp := srcPath ++ ["components"]
  match findEntry "components" srcEntries with
  | none =>
    [{ type := "structure", path := cp,
       message := "components/ directory not found", severity := "error" }]
  | some ce =>
    structureViolations cp (entriesOf ce) ++
      ((tierUnitList cp (entriesOf ce) levelNames).map fun t =>
        unitViolations t.2.1 t.2.2 t.1).flatten

/-- The directories reachable from a root directory `(p, es)`: the root
itself, and recursively everything below any child directory —
independently of whether a directory qualifies as a component unit. -/
inductive Reachable : List String → List Entry → List String × List Entry → Prop
  | root (p : List String) (es : List Entry) : Reachable p es (p, es)
  | step (p : List String) (es : List Entry) (n : String) (des : List Entry)
      (u : List String × List Entry) :
      Entry.dir n des ∈ es → Reachable (p ++ [n]) des u → Reachable p es u

/-! ## Concrete sample inputs used to instantiate the theorems -/

/-- A component file whose text imports from `molecules`. -/
def sampleDepFile : Entry :=
  Entry.file "a.tsx" (some "import x from \"a/molecules/b\"")

/-- A component file with three state hooks and three async functions. -/
def sampleLogicContent : String :=
  "useState useState useState async function async function async function"

/-- The file carrying `sampleLogicContent`. -/
def sampleLogicFile : Entry :=
  Entry.file "b.tsx" (some sampleLogicContent)

/-- A source tree with a single `atoms` unit holding `sampleDepFile`
followed by `sampleLogicFile`. -/
def sampleTree : List Entry :=
  [Entry.dir "components"
    [Entry.dir "atoms" [Entry.dir "Button" [sampleDepFile, sampleLogicFile]],
     Entry.dir "molecules" [],
     Entry.dir "organisms" []]]

/-! ## Decomposition lemmas: each check appends its pure violation list -/

/-- The `_check_component_logic` only appends its violations. -/
theorem checkComponentLogic_eq (p : List String) (e : Entry) (level : String)
    (r : AnalysisReport) :
    checkComponentLogic p e level r =
      { r with violations := r.violations ++ logicViolationList p e } := by
  unfold checkComponentLogic logicViolationList
  cases hre : readText e with
  | none => simp
  | some content =>
    by_cases h : 2 < hookCount content ∧ 2 < funcCount content
    · simp [h, AnalysisReport.add]
    · simp [h]

/-- Threading `add` through a guarded fold is appending the guarded
entries. -/
theorem foldl_guard_add {α : Type} (P : α → Bool) (mk : α → Violation) :
    ∀ (l : List α) (r : AnalysisReport),
      l.foldl (fun acc a => if P a then acc.add (mk a) else acc) r =
        { r with violations := r.violations ++
            l.filterMap fun a => if P a then some (mk a) else none } := by
  intro l
  induction l with
  | nil => intro r; simp
  | cons a t ih =>
    intro r
    simp only [List.foldl_cons, List.filterMap_cons]
    by_cases h : P a
    · rw [if_pos h, ih]
      simp [h, AnalysisReport.add, List.append_assoc]
    · rw [if_neg h, ih]
      simp [h]

/-- The `_check_imports` only appends its violations. -/
theorem checkImports_eq (p : List String) (e : Entry) (level : String)
    (r : AnalysisReport) :
    checkImports p e level r =
      { r with violations := r.violations ++ depViolationList p e level } := by
  unfold checkImports depViolationList
  cases hre : readText e with
  | none => simp
  | some content =>
    exact foldl_guard_add (fun forb => importSearch forb content) _
      (forbiddenImports level) r

/-- The per-file loop of `_analyze_component` only appends the per-file
violations, file by file. -/
theorem foldl_files_eq (p : List String) (level : String) :
    ∀ (es : List Entry) (r : AnalysisReport),
      es.foldl
        (fun acc e =>
          if isComponentSuffix (entryName e) && !(isTestFileName (entryName e)) then
            checkImports (p ++ [entryName e]) e level
              (checkComponentLogic (p ++ [entryName e]) e level acc)
          else acc)
        r
      = { r with violations := r.violations ++ perFileViolations p es level } := by
  intro es
  induction es with
  | nil => intro r; simp [perFileViolations]
  | cons e t ih =>
    intro r
    simp only [List.foldl_cons]
    by_cases h : isComponentSuffix (entryName e) && !(isTestFileName (entryName e))
    · rw [if_pos h, checkComponentLogic_eq, checkImports_eq, ih]
      simp only [Bool.and_eq_true, Bool.not_eq_true'] at h
      simp [perFileViolations, h, List.append_assoc]
    · rw [if_neg h, ih]
      simp only [Bool.and_eq_true, Bool.not_eq_true'] at h
      simp [perFileViolations, h]

/-- The `_analyze_component` appends exactly the unit's violations, counts
the unit once, and counts its barrel and test presence. -/
theorem analyzeComponent_eq (p : List String) (entries : List Entry)
    (level : String) (r : AnalysisReport) :
    analyzeComponent p entries level r =
      { violations := r.violations ++ unitViolations p entries level,
        components_found := r.components_found + 1,
        components_with_tests := r.components_with_tests +
          (if (fileNamesOf entries).any isTestFileName then 1 else 0),
        components_with_barrels := r.components_with_barrels +
          (if (fileNamesOf entries).any isBarrelFileName then 1 else 0) } := by
  unfold analyzeComponent unitViolations
  rw [foldl_files_eq]
  by_cases hb : (fileNamesOf entries).any isBarrelFileName <;>
    by_cases ht : (fileNamesOf entries).any isTestFileName <;>
      simp [hb, ht, AnalysisReport.add, List.append_assoc]

/-- The unit loop of `_analyze_components`, over any unit list. -/
theorem foldl_units_eq (level : String) :
    ∀ (us : List (List String × List Entry)) (r : AnalysisReport),
      us.foldl (fun a u => analyzeComponent u.1 u.2 level a) r =
        { violations := r.violations ++
            (us.map fun u => unitViolations u.1 u.2 level).flatten,
          components_found := r.components_found + us.length,
          components_with_tests := r.components_with_tests +
            (us.filter fun u => (fileNamesOf u.2).any isTestFileName).length,
          components_with_barrels := r.components_with_barrels +
            (us.filter fun u => (fileNamesOf u.2).any isBarrelFileName).length } := by
  intro us
  induction us with
  | nil => intro r; simp
  | cons u t ih =>
    intro r
    simp only [List.foldl_cons]
    rw [analyzeComponent_eq, ih]
    by_cases hb : (fileNamesOf u.2).any isBarrelFileName <;>
      by_cases ht : (fileNamesOf u.2).any isTestFileName <;>
        simp [hb, ht, List.filter_cons, List.append_assoc] <;> omega

/-- The `_check_top_level_structure` only appends the structure warnings of
the missing tiers, in tier order. -/
theorem checkTopLevelStructure_eq (cp : List String) (ents : List Entry)
    (r : AnalysisReport) :
    checkTopLevelStructure cp ents r =
      { r with violations := r.violations ++ structureViolations cp ents } := by
  unfold checkTopLevelStructure structureViolations
  generalize levelNames = l
  induction l generalizing r with
  | nil => simp
  | cons d t ih =>
    simp only [List.foldl_cons, List.filterMap_cons]
    cases hd : findEntry d ents with
    | none => rw [ih]; simp [AnalysisReport.add, List.append_assoc]
    | some e => rw [ih]

/-- The tier loop of `_analyze_components`, over any tier-name list. -/
theorem foldl_levels_eq (cp : List String) (ents : List Entry) :
    ∀ (ls : List String) (r : AnalysisReport),
      ls.foldl
        (fun acc level =>
          (levelUnits cp ents level).foldl
            (fun a u => analyzeComponent u.1 u.2 level a) acc)
        r
      = { violations := r.violations ++
            ((tierUnitList cp ents ls).map fun t =>
              unitViolations t.2.1 t.2.2 t.1).flatten,
          components_found := r.components_found + (tierUnitList cp ents ls).length,
          components_with_tests := r.components_with_tests +
            ((tierUnitList cp ents ls).filter fun t =>
              (fileNamesOf t.2.2).any isTestFileName).length,
          components_with_barrels := r.components_with_barrels +
            ((tierUnitList cp ents ls).filter fun t =>
              (fileNamesOf t.2.2).any isBarrelFileName).length } := by
  intro ls
  induction ls with
  | nil => intro r; simp [tierUnitList]
  | cons level t ih =>
    intro r
    simp only [List.foldl_cons]
    rw [foldl_units_eq, ih]
    simp [tierUnitList, List.filter_map, List.append_assoc, Function.comp_def] <;> omega

/-- The `_analyze_components` records the tier/unit/check-ordered violations
and the unit counts. -/
theorem analyzeComponents_eq (cp : List String) (ents : List Entry)
    (r : AnalysisReport) :
    analyzeComponents cp ents r =
      { violations := r.violations ++
          ((tierUnitList cp ents levelNames).map fun t =>
            unitViolations t.2.1 t.2.2 t.1).flatten,
        components_found := r.components_found +
          (tierUnitList cp ents levelNames).length,
        components_with_tests := r.components_with_tests +
          ((tierUnitList cp ents levelNames).filter fun t =>
            (fileNamesOf t.2.2).any isTestFileName).length,
        components_with_barrels := r.components_with_barrels +
          ((tierUnitList cp ents levelNames).filter fun t =>
            (fileNamesOf t.2.2).any isBarrelFileName).length } :=
  foldl_levels_eq cp ents levelNames r

/-! ## The walk enumerates exactly the reachable directories -/

/-- Membership in the walk of a sibling list comes from one sibling. -/
theorem mem_walkEntries {u : List String × List Entry} (p : List String) :
    ∀ (es : List Entry), u ∈ walkEntries p es ↔ ∃ e ∈ es, u ∈ walkEntry p e := by
  intro es
  induction es with
  | nil => simp [walkEntries]
  | cons e t ih => simp [walkEntries, List.mem_append, ih]

/-- Soundness: every tuple the walk yields under a child entry is a
reachable directory. -/
theorem reachable_of_mem_walkEntry {u : List String × List Entry} :
    ∀ (e : Entry) (p : List String) (es : List Entry),
      e ∈ es → u ∈ walkEntry p e → Reachable p es u
  | Entry.file n c, p, es, he, hu => by simp [walkEntry] at hu
  | Entry.dir n des, p, es, he, hu => by
    simp only [walkEntry, List.mem_cons] at hu
    rcases hu with h | h
    · exact h ▸ Reachable.step p es n des _ he (Reachable.root _ _)
    · rcases (mem_walkEntries (p ++ [n]) des).mp h with ⟨e', he', hu'⟩
      exact Reachable.step p es n des u he
        (reachable_of_mem_walkEntry e' (p ++ [n]) des he' hu')
termination_by e => sizeOf e
decreasing_by
  have h1 := List.sizeOf_lt_of_mem he'
  simp only [Entry.dir.sizeOf_spec]
  omega

/-- Completeness: every reachable directory is the root or a walk
tuple. -/
theorem mem_walk_of_reachable {p : List String} {es : List Entry}
    {u : List String × List Entry} (h : Reachable p es u) :
    u = (p, es) ∨ u ∈ walkEntries p es := by
  induction h with
  | root p es => exact Or.inl rfl
  | step p es n des u hmem hr ih =>
    right
    refine (mem_walkEntries p es).mpr ⟨Entry.dir n des, hmem, ?_⟩
    simp only [walkEntry, List.mem_cons]
    rcases ih with h | h
    · exact Or.inl h
    · exact Or.inr h

/-! ## Membership characterizations of the pure violation lists -/

/-- What it takes for a violation to be recorded by the dependency
check. -/
theorem mem_depViolationList_iff (p : List String) (e : Entry) (level : String)
    (v : Violation) :
    v ∈ depViolationList p e level ↔
      ∃ c, readText e = some c ∧
        ∃ forb ∈ forbiddenImports level, importSearch forb c = true ∧
          v = { type := "dependency", path := p,
                message := pyCapitalize level ++ " should not import from " ++ forb,
                severity := "error" } := by
  unfold depViolationList
  cases hre : readText e with
  | none => simp
  | some content =>
    simp only [List.mem_filterMap, Option.some.injEq]
    constructor
    · rintro ⟨forb, hforb, hv⟩
      by_cases hs : importSearch forb content
      · rw [if_pos hs] at hv
        exact ⟨content, rfl, forb, hforb, hs, (Option.some.injEq _ _).mp hv |>.symm⟩
      · rw [if_neg hs] at hv; cases hv
    · rintro ⟨c, hc, forb, hforb, hs, hv⟩
      cases hc
      exact ⟨forb, hforb, by rw [if_pos hs, hv]⟩

/-- Every violation the logic check records has kind `logic` and warning
severity. -/
theorem mem_logicViolationList (p : List String) (e : Entry) (v : Violation)
    (h : v ∈ logicViolationList p e) :
    v.type = "logic" ∧ v.severity = "warning" := by
  unfold logicViolationList at h
  cases hre : readText e with
  | none => simp [hre] at h
  | some content =>
    simp only [hre] at h
    by_cases hc : 2 < hookCount content ∧ 2 < funcCount content
    · rw [if_pos hc] at h
      rcases List.mem_singleton.mp h with rfl
      exact ⟨rfl, rfl⟩
    · rw [if_neg hc] at h; cases h

/-- The dependency message determines the forbidden tier. -/
theorem dep_message_inj {level a b : String}
    (h : pyCapitalize level ++ " should not import from " ++ a =
         pyCapitalize level ++ " should not import from " ++ b) : a = b := by
  have hd := congrArg String.data h
  simp only [String.data_append, List.append_assoc] at hd
  exact String.ext (List.append_cancel_left (List.append_cancel_left hd))

/-- Per-file violations are logic or dependency violations only. -/
theorem mem_perFileViolations (p : List String) (entries : List Entry)
    (level : String) (v : Violation) (h : v ∈ perFileViolations p entries level) :
    v.type = "logic" ∨ v.type = "dependency" := by
  unfold perFileViolations at h
  rcases List.mem_flatten.mp h with ⟨l, hl, hv⟩
  rcases List.mem_map.mp hl with ⟨e, he, rfl⟩
  by_cases hc : isComponentSuffix (entryName e) && !(isTestFileName (entryName e))
  · rw [if_pos hc] at hv
    rcases List.mem_append.mp hv with h1 | h1
    · exact Or.inl (mem_logicViolationList _ _ _ h1).1
    · rcases (mem_depViolationList_iff _ _ _ _).mp h1 with ⟨c, _, forb, _, _, rfl⟩
      exact Or.inr rfl
  · rw [if_neg hc] at hv; cases hv

/-! ## Claim theorems -/

/-- C1: for a readable component file of tier `level` and a tier `forb`
forbidden for `level`, the dependency-direction check appends its pure
violation list to the report, and that list contains an error-severity
violation of kind `dependency` located at the file and naming the
capitalized current tier and the forbidden tier exactly when the file's
text matches the import pattern for `forb`; every violation it records
is an error-severity dependency violation. -/
theorem checkImports_dependency_violation (p : List String) (e : Entry)
    (level forb : String) (r : AnalysisReport) (c : String)
    (hread : readText e = some c) (hforb : forb ∈ forbiddenImports level) :
    (checkImports p e level r).violations =
      r.violations ++ depViolationList p e level ∧
    ((∃ v ∈ depViolationList p e level,
        v.type = "dependency" ∧ v.severity = "error" ∧ v.path = p ∧
        v.message = pyCapitalize level ++ " should not import from " ++ forb)
      ↔ importSearch forb c = true) ∧
    (∀ v ∈ depViolationList p e level,
      v.type = "dependency" ∧ v.severity = "error") := by
  refine ⟨by rw [checkImports_eq], ⟨?_, ?_⟩, ?_⟩
  · rintro ⟨v, hv, htype, hsev, hpath, hmsg⟩
    rcases (mem_depViolationList_iff p e level v).mp hv with
      ⟨c', hc', forb', hforb', hs', rfl⟩
    rw [hread] at hc'
    cases hc'
    exact dep_message_inj hmsg ▸ hs'
  · intro hs
    exact ⟨_, (mem_depViolationList_iff p e level _).mpr
      ⟨c, hread, forb, hforb, hs, rfl⟩, rfl, rfl, rfl, rfl⟩
  · intro v hv
    rcases (mem_depViolationList_iff p e level v).mp hv with
      ⟨c', _, forb', _, _, rfl⟩
    exact ⟨rfl, rfl⟩

/-- Witness for `checkImports_dependency_violation`: an atoms file whose
text imports from `molecules`. -/
theorem checkImports_dependency_violation_witness :
    readText sampleDepFile = some "import x from \"a/molecules/b\"" ∧
    "molecules" ∈ forbiddenImports "atoms" ∧
    ((checkImports ["u"] sampleDepFile "atoms" {}).violations =
      ({} : AnalysisReport).violations ++ depViolationList ["u"] sampleDepFile "atoms" ∧
    ((∃ v ∈ depViolationList ["u"] sampleDepFile "atoms",
        v.type = "dependency" ∧ v.severity = "error" ∧ v.path = ["u"] ∧
        v.message = pyCapitalize "atoms" ++ " should not import from " ++ "molecules")
      ↔ importSearch "molecules" "import x from \"a/molecules/b\"" = true) ∧
    (∀ v ∈ depViolationList ["u"] sampleDepFile "atoms",
      v.type = "dependency" ∧ v.severity = "error")) :=
  ⟨rfl, by decide,
    checkImports_dependency_violation ["u"] sampleDepFile "atoms" "molecules" {}
      "import x from \"a/molecules/b\"" rfl (by decide)⟩

/-- C2 counterexample: in a source tree holding a plain *file* named
`components`, the components *directory* does not exist, yet the run
records three structure warnings (and no error) instead of exactly one
violation — `Path.exists()` is also true for a plain file. -/
theorem analyze_missing_dir_counterexample :
    dirExists "components" [Entry.file "components" (some "")] = false ∧
    (analyze ["src"] [Entry.file "components" (some "")]).violations.length = 3 ∧
    (analyze ["src"] [Entry.file "components" (some "")]).has_errors = false := by
  decide

/-- C2 (amended): when no entry of any kind named `components` exists
under the source root, the run short-circuits: the returned report is
exactly one structure-kind error violation with all counters zero. -/
theorem analyze_missing_root_short_circuit (srcPath : List String)
    (es : List Entry) (h : findEntry "components" es = none) :
    analyze srcPath es =
      { violations := [{ type := "structure", path := srcPath ++ ["components"],
                         message := "components/ directory not found",
                         severity := "error" }],
        components_found := 0, components_with_tests := 0,
        components_with_barrels := 0 } := by
  unfold analyze
  simp [h, AnalysisReport.add]

/-- Witness for `analyze_missing_root_short_circuit` on the empty source
tree. -/
theorem analyze_missing_root_short_circuit_witness :
    findEntry "components" ([] : List Entry) = none ∧
    analyze ["src"] [] =
      { violations := [{ type := "structure", path := ["src"] ++ ["components"],
                         message := "components/ directory not found",
                         severity := "error" }],
        components_found := 0, components_with_tests := 0,
        components_with_barrels := 0 } :=
  ⟨rfl, analyze_missing_root_short_circuit ["src"] [] rfl⟩

/-- C8: a file whose content is unreadable is silently skipped by both
the logic-density check and the dependency-direction check: the report
is returned unchanged — no violation, no counter change. -/
theorem unreadable_file_skipped (p : List String) (e : Entry) (level : String)
    (r : AnalysisReport) (h : readText e = none) :
    checkComponentLogic p e level r = r ∧ checkImports p e level r = r := by
  unfold checkComponentLogic checkImports
  simp [h]

/-- Witness for `unreadable_file_skipped` on an unreadable `.tsx` file. -/
theorem unreadable_file_skipped_witness :
    readText (Entry.file "x.tsx" none) = none ∧
    checkComponentLogic ["u"] (Entry.file "x.tsx" none) "atoms" {} = {} ∧
    checkImports ["u"] (Entry.file "x.tsx" none) "atoms" {} = {} :=
  ⟨rfl,
    (unreadable_file_skipped ["u"] (Entry.file "x.tsx" none) "atoms" {} rfl).1,
    (unreadable_file_skipped ["u"] (Entry.file "x.tsx" none) "atoms" {} rfl).2⟩

/-- Distinct forbidden tiers produce distinct violations, so a filter on
one message keeps at most one entry of the filterMap. -/
theorem filter_message_length_le_one (c : String) (p : List String)
    (level forb : String) :
    ∀ (l : List String), l.Pairwise (fun a b => a ≠ b) →
      ((l.filterMap fun f =>
          if importSearch f c = true then
            some ({ type := "dependency", path := p,
                    message := pyCapitalize level ++ " should not import from " ++ f,
                    severity := "error" } : Violation)
          else none).filter fun v =>
        v.message == pyCapitalize level ++ " should not import from " ++ forb).length ≤ 1 := by
  intro l
  induction l with
  | nil => simp
  | cons f t ih =>
    intro hp
    rcases List.pairwise_cons.mp hp with ⟨hf, ht⟩
    simp only [List.filterMap_cons]
    by_cases hs : importSearch f c = true
    · rw [if_pos hs]
      simp only [List.filter_cons]
      by_cases hm : (pyCapitalize level ++ " should not import from " ++ f ==
          pyCapitalize level ++ " should not import from " ++ forb) = true
      · simp only [hm, if_true]
        have hnil : ((t.filterMap fun f =>
            if importSearch f c = true then
              some ({ type := "dependency", path := p,
                      message := pyCapitalize level ++ " should not import from " ++ f,
                      severity := "error" } : Violation)
            else none).filter fun v =>
              v.message == pyCapitalize level ++ " should not import from " ++ forb) = [] := by
          rw [List.filter_eq_nil_iff]
          intro v hv
          rcases List.mem_filterMap.mp hv with ⟨f', hf', hv'⟩
          by_cases hs' : importSearch f' c = true
          · rw [if_pos hs'] at hv'
            cases (Option.some.injEq _ _).mp hv'
            intro hbeq
            have h1 := eq_of_beq hm
            have h2 := eq_of_beq hbeq
            exact hf f' hf' (dep_message_inj (h1.trans h2.symm))
          · rw [if_neg hs'] at hv'; cases hv'
        simp [hnil]
      · simp only [hm, if_false]
        exact ih ht
    · rw [if_neg hs]
      exact ih ht

/-- The `forbidden_imports` table never lists a tier twice. -/
theorem forbiddenImports_pairwise (level : String) :
    (forbiddenImports level).Pairwise (fun a b => a ≠ b) := by
  unfold forbiddenImports
  split
  · decide
  · split
    · decide
    · split <;> decide

/-- C10: for one file and one forbidden tier, the dependency check
records at most one violation whose message names that tier, no matter
how many forbidden import statements the text contains. -/
theorem dependency_at_most_one_per_tier (p : List String) (e : Entry)
    (level forb : String) :
    ((depViolationList p e level).filter fun v =>
      v.message == pyCapitalize level ++ " should not import from " ++ forb).length ≤ 1 := by
  unfold depViolationList
  cases hre : readText e with
  | none => simp
  | some content =>
    exact filter_message_length_le_one content p level forb
      (forbiddenImports level) (forbiddenImports_pairwise level)

/-- C3: the Component Locator yields exactly the reachable directories
(root included, any depth) that directly contain a file with a component
extension and no test suffix; non-qualifying directories are still
descended into (reachability is unconditional), and a nonexistent tier
root yields no units. -/
theorem findComponentDirs_characterization (base : List String) (es : List Entry)
    (u : List String × List Entry) (cp : List String) (ents : List Entry)
    (level : String) :
    (u ∈ findComponentDirs base es ↔
      Reachable base es u ∧
        ∃ f ∈ fileNamesOf u.2,
          (strEndsWith f ".tsx" = true ∨ strEndsWith f ".jsx" = true) ∧
            isTestFileName f = false) ∧
    (findEntry level ents = none → levelUnits cp ents level = []) := by
  constructor
  · unfold findComponentDirs
    rw [List.mem_filter]
    have hmem : u ∈ (base, es) :: walkEntries base es ↔ Reachable base es u := by
      rw [List.mem_cons]
      constructor
      · rintro (h | h)
        · exact h ▸ Reachable.root base es
        · rcases (mem_walkEntries base es).mp h with ⟨e, he, hu⟩
          exact reachable_of_mem_walkEntry e base es he hu
      · intro h
        rcases mem_walk_of_reachable h with h1 | h1
        · exact Or.inl h1
        · exact Or.inr h1
    rw [hmem]
    simp [hasComponentFile, hasComponentExt, List.any_eq_true, Bool.and_eq_true,
      Bool.not_eq_true']
  · intro h
    simp [levelUnits, h]

/-- Witness for `findComponentDirs_characterization` on a one-directory
tree and a missing tier. -/
theorem findComponentDirs_characterization_witness :
    ((["c"], ([] : List Entry)) ∈ findComponentDirs ["c"] [] ↔
      Reachable ["c"] [] (["c"], []) ∧
        ∃ f ∈ fileNamesOf ([] : List Entry),
          (strEndsWith f ".tsx" = true ∨ strEndsWith f ".jsx" = true) ∧
            isTestFileName f = false) ∧
    levelUnits ["c"] [] "atoms" = [] :=
  ⟨(findComponentDirs_characterization ["c"] [] (["c"], []) ["c"] [] "atoms").1,
   (findComponentDirs_characterization ["c"] [] (["c"], []) ["c"] [] "atoms").2 rfl⟩

/-- C4: the barrel check records exactly one warning of kind `barrel`
iff the unit's file names are disjoint from the barrel-file-name set;
when they intersect it, no barrel violation is recorded and
`components_with_barrels` is incremented by one. -/
theorem analyzeComponent_barrel_check (p : List String) (entries : List Entry)
    (level : String) (r : AnalysisReport) :
    ((fileNamesOf entries).any isBarrelFileName = false ↔
      ∀ n ∈ fileNamesOf entries,
        ¬(n = "index.ts" ∨ n = "index.tsx" ∨ n = "index.js" ∨ n = "index.jsx")) ∧
    (analyzeComponent p entries level r).violations =
      r.violations ++ unitViolations p entries level ∧
    ((unitViolations p entries level).filter fun v => v.type == "barrel") =
      (if (fileNamesOf entries).any isBarrelFileName then []
       else [{ type := "barrel", path := p,
               message := "Missing barrel file (index.ts)",
               severity := "warning" }]) ∧
    (analyzeComponent p entries level r).components_with_barrels =
      r.components_with_barrels +
        (if (fileNamesOf entries).any isBarrelFileName then 1 else 0) := by
  refine ⟨?_, ?_, ?_, ?_⟩
  · simp [List.any_eq_false, isBarrelFileName, and_assoc]
  · rw [analyzeComponent_eq]
  · have hper : (perFileViolations p entries level).filter
        (fun v => v.type == "barrel") = [] := by
      rw [List.filter_eq_nil_iff]
      intro v hv
      rcases mem_perFileViolations p entries level v hv with h | h <;> simp [h]
    unfold unitViolations
    by_cases hb : (fileNamesOf entries).any isBarrelFileName <;>
      by_cases ht : (fileNamesOf entries).any isTestFileName <;>
        simp [hb, ht, List.filter_append, hper]
  · rw [analyzeComponent_eq]

/-- C5: for a readable file, the logic-density check appends a warning of
kind `logic` iff the text holds more than two state-hook occurrences and
more than two function-pattern matches; the message carries exactly the
two counts, re-running the check appends the identical list again, and no
counter ever changes. -/
theorem checkComponentLogic_density (p : List String) (e : Entry) (level : String)
    (r : AnalysisReport) (c : String) (hread : readText e = some c) :
    logicViolationList p e =
      (if 2 < hookCount c ∧ 2 < funcCount c then
        [{ type := "logic", path := p,
           message := "Component has " ++ toString (hookCount c) ++ " hooks and " ++
             toString (funcCount c) ++
             " functions. Consider extracting logic to a custom hook.",
           severity := "warning" }]
       else []) ∧
    (checkComponentLogic p e level r).violations =
      r.violations ++ logicViolationList p e ∧
    (checkComponentLogic p e level (checkComponentLogic p e level r)).violations =
      r.violations ++ logicViolationList p e ++ logicViolationList p e ∧
    (checkComponentLogic p e level r).components_found = r.components_found ∧
    (checkComponentLogic p e level r).components_with_tests =
      r.components_with_tests ∧
    (checkComponentLogic p e level r).components_with_barrels =
      r.components_with_barrels := by
  refine ⟨?_, ?_, ?_, ?_, ?_, ?_⟩
  · unfold logicViolationList
    simp [hread]
  · rw [checkComponentLogic_eq]
  · rw [checkComponentLogic_eq, checkComponentLogic_eq]
  · rw [checkComponentLogic_eq]
  · rw [checkComponentLogic_eq]
  · rw [checkComponentLogic_eq]

/-- Witness for `checkComponentLogic_density`: a file with three state
hooks and three async functions, which does trigger the warning. -/
theorem checkComponentLogic_density_witness :
    readText sampleLogicFile = some sampleLogicContent ∧
    (2 < hookCount sampleLogicContent ∧ 2 < funcCount sampleLogicContent) ∧
    (logicViolationList ["u"] sampleLogicFile =
      (if 2 < hookCount sampleLogicContent ∧ 2 < funcCount sampleLogicContent then
        [{ type := "logic", path := ["u"],
           message := "Component has " ++ toString (hookCount sampleLogicContent) ++
             " hooks and " ++ toString (funcCount sampleLogicContent) ++
             " functions. Consider extracting logic to a custom hook.",
           severity := "warning" }]
       else []) ∧
    (checkComponentLogic ["u"] sampleLogicFile "atoms" {}).violations =
      ({} : AnalysisReport).violations ++ logicViolationList ["u"] sampleLogicFile ∧
    (checkComponentLogic ["u"] sampleLogicFile "atoms"
        (checkComponentLogic ["u"] sampleLogicFile "atoms" {})).violations =
      ({} : AnalysisReport).violations ++ logicViolationList ["u"] sampleLogicFile ++
        logicViolationList ["u"] sampleLogicFile ∧
    (checkComponentLogic ["u"] sampleLogicFile "atoms" {}).components_found =
      ({} : AnalysisReport).components_found ∧
    (checkComponentLogic ["u"] sampleLogicFile "atoms" {}).components_with_tests =
      ({} : AnalysisReport).components_with_tests ∧
    (checkComponentLogic ["u"] sampleLogicFile "atoms" {}).components_with_barrels =
      ({} : AnalysisReport).components_with_barrels) :=
  ⟨rfl, by decide,
    checkComponentLogic_density ["u"] sampleLogicFile "atoms" {} sampleLogicContent rfl⟩

/-- C6 counterexample: in a unit holding `a.tsx` (with a forbidden
import) before `b.tsx` (with heavy logic), the run records the
dependency violation of `a.tsx` *before* the logic violation of
`b.tsx`, so within this unit not all logic violations precede all
dependency violations. -/
theorem violations_order_counterexample :
    ((analyze ["src"] sampleTree).violations.map fun v => (v.type, v.path)) =
      [("barrel", ["src", "components", "atoms", "Button"]),
       ("test", ["src", "components", "atoms", "Button"]),
       ("dependency", ["src", "components", "atoms", "Button", "a.tsx"]),
       ("logic", ["src", "components", "atoms", "Button", "b.tsx"])] := by
  decide

/-- C6 (amended): the violation sequence is the structure part followed,
tier by tier in fixed order and unit by unit in locator order, by each
unit's violations: barrel first, then test, then the per-file checks
file by file, each file's logic violation before its dependency
violations. -/
theorem analyze_violations_order (srcPath : List String) (srcEntries : List Entry) :
    (analyze srcPath srcEntries).violations =
      expectedViolations srcPath srcEntries := by
  unfold analyze expectedViolations
  cases h : findEntry "components" srcEntries with
  | none => simp [AnalysisReport.add]
  | some ce =>
    simp only [h]
    rw [checkTopLevelStructure_eq, analyzeComponents_eq]
    simp

/-- C7: after a run the counters satisfy `tests ≤ found` and
`barrels ≤ found`; each analyzed unit increments `found` exactly once
and the other two counters at most once (and never decrements them). -/
theorem report_counter_invariants (srcPath : List String) (srcEntries : List Entry) :
    ((analyze srcPath srcEntries).components_with_tests ≤
        (analyze srcPath srcEntries).components_found ∧
      (analyze srcPath srcEntries).components_with_barrels ≤
        (analyze srcPath srcEntries).components_found ∧
      0 ≤ (analyze srcPath srcEntries).components_found ∧
      0 ≤ (analyze srcPath srcEntries).components_with_tests ∧
      0 ≤ (analyze srcPath srcEntries).components_with_barrels) ∧
    (∀ (p : List String) (entries : List Entry) (level : String)
        (r : AnalysisReport),
      (analyzeComponent p entries level r).components_found =
        r.components_found + 1 ∧
      r.components_with_tests ≤
        (analyzeComponent p entries level r).components_with_tests ∧
      (analyzeComponent p entries level r).components_with_tests ≤
        r.components_with_tests + 1 ∧
      r.components_with_barrels ≤
        (analyzeComponent p entries level r).components_with_barrels ∧
      (analyzeComponent p entries level r).components_with_barrels ≤
        r.components_with_barrels + 1) := by
  constructor
  · unfold analyze
    cases h : findEntry "components" srcEntries with
    | none => simp [AnalysisReport.add]
    | some ce =>
      simp only [h]
      rw [checkTopLevelStructure_eq, analyzeComponents_eq]
      refine ⟨?_, ?_, Nat.zero_le _, Nat.zero_le _, Nat.zero_le _⟩
      · simpa using List.length_filter_le _ _
      · simpa using List.length_filter_le _ _
  · intro p entries level r
    rw [analyzeComponent_eq]
    by_cases ht : (fileNamesOf entries).any isTestFileName <;>
      by_cases hb : (fileNamesOf entries).any isBarrelFileName <;>
        simp [ht, hb]

/-- C9: the exit code is 0 iff the report holds no error-severity
violation, 1 when one exists, and 1 when the supplied path does not
exist. -/
theorem exit_code_spec :
    mainExitCode none = 1 ∧
    ∀ (p : List String) (es : List Entry),
      (mainExitCode (some (p, es)) = 0 ↔
        ¬∃ v ∈ (analyze p es).violations, v.severity = "error") ∧
      (mainExitCode (some (p, es)) = 1 ↔
        ∃ v ∈ (analyze p es).violations, v.severity = "error") := by
  refine ⟨rfl, fun p es => ?_⟩
  have hiff : (analyze p es).has_errors = true ↔
      ∃ v ∈ (analyze p es).violations, v.severity = "error" := by
    simp [AnalysisReport.has_errors, List.any_eq_true]
  cases hbe : (analyze p es).has_errors with
  | true =>
    have hex := hiff.mp hbe
    simp [mainExitCode, hbe, hex]
  | false =>
    have hnex : ¬∃ v ∈ (analyze p es).violations, v.severity = "error" := fun hc =>
      by simp [hiff.mpr hc] at hbe
    simp [mainExitCode, hbe, hnex]

end AnalyzeStructure
